import Mathlib

/-!
Verification development for the QueueSmart parent-teacher queue scheduler.

The definitions below are a shallow embedding of the scheduling core found in
src/server/storage.ts and src/server/routes.ts: queue entries, meetings, the
atomic admission check, the queue-advancement scan, the skipped-entry
reprocessing loop, the skip-no-show compound operation and the join route.
Identifiers (teachers, parent sessions, entries, meetings, child names) are
modelled as opaque Nat tokens; timestamps are a Nat clock passed to each
operation; notification broadcasts are accumulated in an event log.
-/

/-- QueueEntry.status values: waiting, next, current, completed, skipped
(shared/schema.ts, queue_entries.status). -/
inductive Status where
  | waiting
  | next
  | current
  | completed
  | skipped
deriving DecidableEq, Repr

/-- The distinct broadcast messages sent by the scheduler (routes.ts and
storage.ts broadcastFn call sites). -/
inductive Msg where
  | yourTurnNow
  | gettingClose
  | skippedBusy
  | removedFromQueue
  | meetingEndedThanks
deriving DecidableEq, Repr

/-- One broadcast event handed to the notification sink, mirroring the
broadcastFn payloads (type, queueEntryId/teacherId, message, target filter). -/
inductive Event where
  | statusUpdate (queueEntryId : Nat) (status : Status) (msg : Msg) (parent : Nat)
  | queueRemoved (queueEntryId : Nat) (msg : Msg) (parent : Nat)
  | meetingStarted (teacherId : Nat) (meetingId : Nat)
  | meetingEnded (teacherId : Nat)
  | queueUpdate (teacherId : Nat)
deriving DecidableEq, Repr

/-- A queue_entries row (shared/schema.ts). -/
structure QueueEntry where
  id : Nat
  teacherId : Nat
  parentSessionId : Nat
  childName : Nat
  status : Status
  position : Nat
  joinedAt : Nat
  notifiedAt : Option Nat
  startedAt : Option Nat
  completedAt : Option Nat
deriving DecidableEq, Repr

/-- A meetings row (shared/schema.ts): endedAt is null while the meeting is
open; duration is computed at end; wasExtended/extendedBy record extensions. -/
structure Meeting where
  id : Nat
  teacherId : Nat
  queueEntryId : Nat
  startedAt : Nat
  endedAt : Option Nat
  duration : Option Int
  wasExtended : Bool
  extendedBy : Nat
deriving DecidableEq, Repr

/-- The persistent state: the two mutable tables, id counters for inserts, and
the log of emitted notifications. -/
structure DB where
  entries : List QueueEntry
  meetings : List Meeting
  nextEntryId : Nat
  nextMeetingId : Nat
  events : List Event
deriving DecidableEq, Repr

def isActive : Status → Bool
  | .waiting => true
  | .next => true
  | .current => true
  | _ => false

def isWaitingOrNext : Status → Bool
  | .waiting => true
  | .next => true
  | _ => false

def isNotCompleted : Status → Bool
  | .completed => false
  | _ => true

/-- select * from queue_entries where id = eid (primary-key lookup). -/
def entryById (db : DB) (eid : Nat) : Option QueueEntry :=
  db.entries.find? (fun e => e.id == eid)

/-- select * from meetings where id = mid (primary-key lookup). -/
def meetingById (db : DB) (mid : Nat) : Option Meeting :=
  db.meetings.find? (fun m => m.id == mid)

def statusOf (db : DB) (eid : Nat) : Option Status :=
  (entryById db eid).map QueueEntry.status

def positionOf (db : DB) (eid : Nat) : Option Nat :=
  (entryById db eid).map QueueEntry.position

def startedAtOf (db : DB) (eid : Nat) : Option (Option Nat) :=
  (entryById db eid).map QueueEntry.startedAt

def notifiedAtOf (db : DB) (eid : Nat) : Option (Option Nat) :=
  (entryById db eid).map QueueEntry.notifiedAt

/-- The teacher's active queue rows: status in (waiting, next, current)
(getQueueEntriesForTeacher's where-clause, storage.ts:164-167). -/
def activeEntriesFor (db : DB) (t : Nat) : List QueueEntry :=
  db.entries.filter (fun e => e.teacherId == t && isActive e.status)

/-- The teacher's rows with status waiting. -/
def waitingFor (db : DB) (t : Nat) : List QueueEntry :=
  db.entries.filter (fun e => e.teacherId == t && e.status == Status.waiting)

/-- Open meetings (endedAt null) for one teacher. -/
def openMeetingsFor (db : DB) (t : Nat) : List Meeting :=
  db.meetings.filter (fun m => m.teacherId == t && m.endedAt.isNone)

/-- Positions of the teacher's active entries, in table order. -/
def activePositions (db : DB) (t : Nat) : List Nat :=
  (activeEntriesFor db t).map QueueEntry.position

/-- isParentInActiveMeeting (storage.ts:124-137): the parent session has some
meeting with null endedAt, joined through the meeting's queue entry. -/
def isParentInActiveMeeting (db : DB) (p : Nat) : Bool :=
  db.meetings.any (fun m =>
    m.endedAt.isNone &&
      (match entryById db m.queueEntryId with
       | some e => e.parentSessionId == p
       | none => false))

/-- isParentInTeacherQueue (storage.ts:224-235): any non-completed entry of
this parent in this teacher's queue (skipped included). -/
def isParentInTeacherQueue (db : DB) (p t : Nat) : Bool :=
  db.entries.any (fun e =>
    e.parentSessionId == p && e.teacherId == t && isNotCompleted e.status)

/-- getCurrentMeeting (storage.ts:368-394): the teacher's open meeting with the
greatest startedAt (order by startedAt desc limit 1); earlier row wins ties. -/
def getCurrentMeeting (db : DB) (t : Nat) : Option Meeting :=
  (openMeetingsFor db t).foldl
    (fun acc m =>
      match acc with
      | none => some m
      | some m' => if m'.startedAt < m.startedAt then some m else some m')
    none

/-- Append one broadcast event to the log. -/
def emitE (db : DB) (ev : Event) : DB :=
  { db with events := db.events ++ [ev] }

/-- Apply a row transformation to every queue_entries row. -/
def mapEntries (db : DB) (g : QueueEntry → QueueEntry) : DB :=
  { db with entries := db.entries.map g }

/-- update queue_entries set ... where id = eid. -/
def mapEntry (db : DB) (eid : Nat) (f : QueueEntry → QueueEntry) : DB :=
  mapEntries db (fun e => if e.id == eid then f e else e)

/-- update meetings set ... where id = mid. -/
def mapMeeting (db : DB) (mid : Nat) (f : Meeting → Meeting) : DB :=
  { db with meetings := db.meetings.map (fun m => if m.id == mid then f m else m) }

/-- insert into meetings values (teacherId, queueEntryId) returning *;
startedAt defaults to now, endedAt/duration null, wasExtended false,
extendedBy 0 (shared/schema.ts defaults). -/
def addMeeting (db : DB) (now t qeid : Nat) : DB × Meeting :=
  let m : Meeting :=
    { id := db.nextMeetingId, teacherId := t, queueEntryId := qeid,
      startedAt := now, endedAt := none, duration := none,
      wasExtended := false, extendedBy := 0 }
  ({ db with meetings := db.meetings ++ [m], nextMeetingId := db.nextMeetingId + 1 }, m)

/-- createQueueEntry (storage.ts:237-269): position := max of the teacher's
active positions (select ... order by position desc limit 1) plus one, or 1
when there is none; insert the row with the given status; joinedAt := now. -/
def createQueueEntry (db : DB) (now t p cn : Nat) (st : Status) : DB × QueueEntry :=
  let maxPos : Nat := (activeEntriesFor db t).foldl (fun acc e => max acc e.position) 0
  let e : QueueEntry :=
    { id := db.nextEntryId, teacherId := t, parentSessionId := p, childName := cn,
      status := st, position := maxPos + 1, joinedAt := now,
      notifiedAt := none, startedAt := none, completedAt := none }
  ({ db with entries := db.entries ++ [e], nextEntryId := db.nextEntryId + 1 }, e)

/-- createMeetingIfTeacherFree (storage.ts:402-465): inside one transaction,
reject if the teacher has an open meeting, if the queue entry is missing, or
if the entry's parent is already in an open meeting; otherwise insert the
meeting. -/
def createMeetingIfTeacherFree (db : DB) (now t qeid : Nat) : DB × Option Meeting :=
  if db.meetings.any (fun m => m.teacherId == t && m.endedAt.isNone) then
    (db, none)
  else
    match entryById db qeid with
    | none => (db, none)
    | some e =>
      if isParentInActiveMeeting db e.parentSessionId then
        (db, none)
      else
        let (db1, m) := addMeeting db now t qeid
        (db1, some m)

/-- endMeeting (storage.ts:597-607): set endedAt := now and duration :=
seconds from startedAt to now, unconditionally, returning the updated row. -/
def endMeeting (db : DB) (now mid : Nat) : DB × Option Meeting :=
  let db' := mapMeeting db mid (fun m =>
    { m with endedAt := some now, duration := some ((now : Int) - (m.startedAt : Int)) })
  (db', meetingById db' mid)

/-- extendMeeting (storage.ts:609-618): set wasExtended := true and add the
extension seconds to extendedBy, returning the updated row. -/
def extendMeeting (db : DB) (mid secs : Nat) : DB × Option Meeting :=
  let db' := mapMeeting db mid (fun m =>
    { m with wasExtended := true, extendedBy := m.extendedBy + secs })
  (db', meetingById db' mid)

/-- The priority-requeue transaction of processQueueAfterMeetingEnd
(storage.ts:337-362): shift every active entry of the teacher up by one
position, then set the target entry to status waiting at position 1. -/
def reprioritize (db : DB) (t eid : Nat) : DB :=
  let db1 : DB := mapEntries db (fun e =>
    if e.teacherId == t && isActive e.status then { e with position := e.position + 1 } else e)
  mapEntry db1 eid (fun e => { e with status := Status.waiting, position := 1 })

def posLe (a b : QueueEntry) : Prop := a.position ≤ b.position

instance : DecidableRel posLe := fun a b => Nat.decLe a.position b.position

instance : IsTotal QueueEntry posLe := ⟨fun a b => Nat.le_total a.position b.position⟩

instance : IsTrans QueueEntry posLe := ⟨fun _ _ _ h h' => Nat.le_trans h h'⟩

def joinLe (a b : QueueEntry) : Prop := a.joinedAt ≤ b.joinedAt

instance : DecidableRel joinLe := fun a b => Nat.decLe a.joinedAt b.joinedAt

instance : IsTotal QueueEntry joinLe := ⟨fun a b => Nat.le_total a.joinedAt b.joinedAt⟩

instance : IsTrans QueueEntry joinLe := ⟨fun _ _ _ h h' => Nat.le_trans h h'⟩

def sortByPos (l : List QueueEntry) : List QueueEntry :=
  List.insertionSort posLe l

def sortByJoined (l : List QueueEntry) : List QueueEntry :=
  List.insertionSort joinLe l

/-- The meeting row inserted when the scan or the reprocessing loop admits
entry a for teacher t (all Meeting columns take their schema defaults). -/
def mkAdmitMeeting (db : DB) (now t : Nat) (a : QueueEntry) : Meeting :=
  { id := db.nextMeetingId, teacherId := t, queueEntryId := a.id, startedAt := now,
    endedAt := none, duration := none, wasExtended := false, extendedBy := 0 }

/-- The busy branch of the advance scan (storage.ts:509-523): mark the entry
skipped and notify its parent that their turn was skipped. -/
def skipOne (db : DB) (e : QueueEntry) : DB :=
  emitE (mapEntry db e.id (fun x => { x with status := Status.skipped }))
    (Event.statusUpdate e.id Status.skipped Msg.skippedBusy e.parentSessionId)

/-- The admission branch of the advance scan (storage.ts:526-552): insert the
meeting directly (there is no teacher-free check here), mark the entry current
with startedAt := now, and notify its parent. -/
def admitOne (db : DB) (now t : Nat) (a : QueueEntry) : DB :=
  let db1 : DB :=
    { db with meetings := db.meetings ++ [mkAdmitMeeting db now t a],
              nextMeetingId := db.nextMeetingId + 1 }
  let db2 := mapEntry db1 a.id (fun x => { x with status := Status.current, startedAt := some now })
  emitE db2 (Event.statusUpdate a.id Status.current Msg.yourTurnNow a.parentSessionId)

/-- The scan snapshot of advanceQueueForTeacher (storage.ts:471-491): the
teacher's entries with status waiting or next, ascending by position. -/
def advanceSnapshot (db : DB) (t : Nat) : List QueueEntry :=
  sortByPos (db.entries.filter (fun e => e.teacherId == t && isWaitingOrNext e.status))

/-- Whether the entry's parent session holds an open meeting — the per-entry
check inside the advance scan (storage.ts:500-507). -/
def entryBusy (db : DB) (e : QueueEntry) : Bool :=
  isParentInActiveMeeting db e.parentSessionId

/-- The scan loop of advanceQueueForTeacher (storage.ts:498-558): mark each
entry with a busy parent skipped and continue; on the first entry with a free
parent insert a meeting (no teacher-free check), mark it current with
startedAt := now, and stop. Returns the state, the admitted meeting and entry,
and the list of entries skipped before the admission. -/
def advanceLoop (now t : Nat) (db : DB) :
    List QueueEntry → DB × Option Meeting × Option QueueEntry × List QueueEntry
  | [] => (db, none, none, [])
  | e :: rest =>
    if entryBusy db e then
      let r := advanceLoop now t (skipOne db e) rest
      (r.1, r.2.1, r.2.2.1, e :: r.2.2.2)
    else
      (admitOne db now t e, some (mkAdmitMeeting db now t e), some e, [])

/-- advanceQueueForTeacher (storage.ts:468-595): run the scan loop on the
snapshot; if a meeting was admitted, promote the lowest-position waiting entry
to status next with notifiedAt := now and emit a getting-close notification. -/
def advanceQueueForTeacher (db : DB) (now t : Nat) :
    DB × Option Meeting × Option QueueEntry × List QueueEntry :=
  let r := advanceLoop now t db (advanceSnapshot db t)
  match r.2.1 with
  | none => r
  | some _ =>
    match sortByPos (waitingFor r.1 t) with
    | [] => r
    | w :: _ =>
      let db2 := mapEntry r.1 w.id (fun x => { x with status := Status.next, notifiedAt := some now })
      let db3 := emitE db2 (Event.statusUpdate w.id Status.next Msg.gettingClose w.parentSessionId)
      (db3, r.2)

/-- The parent's skipped entries, ordered by original join time
(processQueueAfterMeetingEnd's query, storage.ts:296-302). -/
def skippedListFor (db : DB) (p : Nat) : List QueueEntry :=
  sortByJoined (db.entries.filter (fun e => e.parentSessionId == p && e.status == Status.skipped))

/-- The loop body of processQueueAfterMeetingEnd (storage.ts:304-365): for
each skipped entry in turn, try the atomic admission; on success mark it
current with startedAt := now, notify, and stop; on failure reprioritize it to
the front of its teacher's queue and continue. -/
def processLoop (now : Nat) (db : DB) : List QueueEntry → DB
  | [] => db
  | se :: rest =>
    let (db1, res) := createMeetingIfTeacherFree db now se.teacherId se.id
    match res with
    | some m =>
      let db2 := mapEntry db1 se.id (fun x => { x with status := Status.current, startedAt := some now })
      let db3 := emitE db2 (Event.statusUpdate se.id Status.current Msg.yourTurnNow se.parentSessionId)
      emitE db3 (Event.meetingStarted se.teacherId m.id)
    | none =>
      processLoop now (reprioritize db1 se.teacherId se.id) rest

/-- processQueueAfterMeetingEnd (storage.ts:294-365). -/
def processQueueAfterMeetingEnd (db : DB) (now p : Nat) : DB :=
  processLoop now db (skippedListFor db p)

inductive JoinError where
  | alreadyInQueue
deriving DecidableEq, Repr

/-- The join-queue route (routes.ts:100-199), after session/teacher lookup:
reject a duplicate join; compute the initial status from queue emptiness and
the parent's meeting state; insert the entry; when first and current, attempt
the atomic meeting creation, falling back to waiting on rejection. Returns the
created row (as the route responds with the inserted entry). -/
def joinQueue (db : DB) (now t p cn : Nat) : DB × Except JoinError QueueEntry :=
  if isParentInTeacherQueue db p t then
    (db, Except.error JoinError.alreadyInQueue)
  else
    let isFirstInQueue := (activeEntriesFor db t).isEmpty
    let initialStatus : Status :=
      if isFirstInQueue then
        (if isParentInActiveMeeting db p then Status.skipped else Status.current)
      else Status.waiting
    let (db1, entry) := createQueueEntry db now t p cn initialStatus
    let db2 :=
      if isFirstInQueue && initialStatus == Status.current then
        let (dbA, mres) := createMeetingIfTeacherFree db1 now t entry.id
        match mres with
        | some _ =>
          let dbB := mapEntry dbA entry.id (fun x => { x with status := Status.current, startedAt := some now })
          emitE dbB (Event.statusUpdate entry.id Status.current Msg.yourTurnNow p)
        | none =>
          mapEntry dbA entry.id (fun x => { x with status := Status.waiting })
      else if isFirstInQueue && initialStatus == Status.skipped then
        emitE db1 (Event.statusUpdate entry.id Status.skipped Msg.skippedBusy p)
      else db1
    let db3 := emitE db2 (Event.queueUpdate t)
    (db3, Except.ok entry)

/-- The end-meeting route (routes.ts:257-307): end the teacher's current
meeting if any, mark its entry completed, notify, reprocess the parent's
skipped entries, then advance the teacher's queue. -/
def endMeetingRoute (db : DB) (now t : Nat) : DB :=
  let db1 :=
    match getCurrentMeeting db t with
    | none => db
    | some cm =>
      let dbA := (endMeeting db now cm.id).1
      let dbB := mapEntry dbA cm.queueEntryId (fun x =>
        { x with status := Status.completed, completedAt := some now })
      match entryById dbB cm.queueEntryId with
      | none => dbB
      | some ce =>
        let dbC := emitE dbB (Event.queueRemoved ce.id Msg.meetingEndedThanks ce.parentSessionId)
        processQueueAfterMeetingEnd dbC now ce.parentSessionId
  let r := advanceQueueForTeacher db1 now t
  let db2 :=
    match r.2.1 with
    | some m => emitE r.1 (Event.meetingStarted t m.id)
    | none => r.1
  emitE db2 (Event.meetingEnded t)

/-- skipNoShowParent (storage.ts:620-682): end the current meeting if any;
mark the head of the active queue skipped with completedAt := now and send a
removed notification; reprocess that parent's skipped entries; advance the
teacher's queue. -/
def skipNoShowParent (db : DB) (now t : Nat) : DB :=
  let db0 :=
    match getCurrentMeeting db t with
    | none => db
    | some cm => (endMeeting db now cm.id).1
  let db' :=
    match sortByPos (activeEntriesFor db0 t) with
    | [] => db0
    | se :: _ =>
      let db1 := mapEntry db0 se.id (fun x =>
        { x with status := Status.skipped, completedAt := some now })
      let db2 := emitE db1 (Event.queueRemoved se.id Msg.removedFromQueue se.parentSessionId)
      let db3 := processQueueAfterMeetingEnd db2 now se.parentSessionId
      let r := advanceQueueForTeacher db3 now t
      match r.2.1 with
      | some m => emitE r.1 (Event.meetingStarted t m.id)
      | none => r.1
  emitE (emitE db' (Event.meetingEnded t)) (Event.queueUpdate t)

/-! Helper definitions used to characterize the scan and reprocessing loops. -/

/-- The entry ids column. -/
def entryIds (db : DB) : List Nat :=
  db.entries.map QueueEntry.id

/-- The meeting ids column. -/
def meetingIds (db : DB) : List Nat :=
  db.meetings.map Meeting.id

/-- The busy-branch steps folded over a list of entries. -/
def skipAll (db : DB) : List QueueEntry → DB
  | [] => db
  | e :: l => skipAll (skipOne db e) l

/-- Whether createMeetingIfTeacherFree would admit this entry in this state:
its teacher has no open meeting, the row is present, and the row's parent
session is in no open meeting. -/
def canAdmit (db : DB) (e : QueueEntry) : Bool :=
  !(db.meetings.any (fun m => m.teacherId == e.teacherId && m.endedAt.isNone)) &&
    (match entryById db e.id with
     | none => false
     | some x => !(isParentInActiveMeeting db x.parentSessionId))

/-- Marks an entry skipped when its id occurs in the given id list. -/
def skipIfIn (ids : List Nat) (e : QueueEntry) : QueueEntry :=
  if e.id ∈ ids then { e with status := Status.skipped } else e

/-- The failure-branch steps of the reprocessing loop folded over a list. -/
def reprioAll (db : DB) : List QueueEntry → DB
  | [] => db
  | e :: l => reprioAll (reprioritize db e.teacherId e.id) l

/-- The success branch of the reprocessing loop: insert the meeting, mark the
entry current with startedAt := now, notify the parent and the observers. -/
def admitP (db : DB) (now : Nat) (a : QueueEntry) : DB :=
  let db1 : DB :=
    { db with meetings := db.meetings ++ [mkAdmitMeeting db now a.teacherId a],
              nextMeetingId := db.nextMeetingId + 1 }
  let db2 := mapEntry db1 a.id (fun x => { x with status := Status.current, startedAt := some now })
  let db3 := emitE db2 (Event.statusUpdate a.id Status.current Msg.yourTurnNow a.parentSessionId)
  emitE db3 (Event.meetingStarted a.teacherId (mkAdmitMeeting db now a.teacherId a).id)

/-! Specification predicates for the confirmed claims. -/

/-- The behaviour of AdvanceForTeacher's admission scan on a fixed state: if
every snapshot entry's parent is busy, all are marked skipped and no meeting
is created; if the snapshot splits as pre plus a plus post with every pre
parent busy and a's parent free, then exactly one meeting is created for a,
a becomes current with startedAt now, the pre entries become skipped, and a is
a lowest-position eligible entry. -/
def AdvanceCases (db : DB) (now t : Nat) : Prop :=
  ((∀ e ∈ advanceSnapshot db t, entryBusy db e = true) →
    (advanceQueueForTeacher db now t).2.1 = none ∧
    (advanceQueueForTeacher db now t).2.2.2 = advanceSnapshot db t ∧
    (advanceQueueForTeacher db now t).1.meetings = db.meetings ∧
    ∀ e ∈ advanceSnapshot db t,
      statusOf (advanceQueueForTeacher db now t).1 e.id = some Status.skipped) ∧
  (∀ pre a post, advanceSnapshot db t = pre ++ a :: post →
    (∀ e ∈ pre, entryBusy db e = true) → entryBusy db a = false →
    (advanceQueueForTeacher db now t).2.1 = some (mkAdmitMeeting db now t a) ∧
    (advanceQueueForTeacher db now t).2.2.1 = some a ∧
    (advanceQueueForTeacher db now t).2.2.2 = pre ∧
    (advanceQueueForTeacher db now t).1.meetings = db.meetings ++ [mkAdmitMeeting db now t a] ∧
    statusOf (advanceQueueForTeacher db now t).1 a.id = some Status.current ∧
    startedAtOf (advanceQueueForTeacher db now t).1 a.id = some (some now) ∧
    (∀ e ∈ pre, statusOf (advanceQueueForTeacher db now t).1 e.id = some Status.skipped) ∧
    (∀ e ∈ advanceSnapshot db t, entryBusy db e = false → a.position ≤ e.position))

/-- The promotion behaviour of AdvanceForTeacher: whenever some waiting entry
for the teacher remains after the admission scan, a lowest-position one is
promoted to next with notifiedAt now and a getting-close notification, and
every other waiting entry stays waiting. -/
def PromoteSpec (db : DB) (now t : Nat) : Prop :=
  waitingFor (advanceLoop now t db (advanceSnapshot db t)).1 t ≠ [] →
    ∃ w, w ∈ waitingFor (advanceLoop now t db (advanceSnapshot db t)).1 t ∧
      (∀ e ∈ waitingFor (advanceLoop now t db (advanceSnapshot db t)).1 t, w.position ≤ e.position) ∧
      statusOf (advanceQueueForTeacher db now t).1 w.id = some Status.next ∧
      notifiedAtOf (advanceQueueForTeacher db now t).1 w.id = some (some now) ∧
      Event.statusUpdate w.id Status.next Msg.gettingClose w.parentSessionId ∈
        (advanceQueueForTeacher db now t).1.events ∧
      ∀ e ∈ waitingFor (advanceLoop now t db (advanceSnapshot db t)).1 t, e.id ≠ w.id →
        statusOf (advanceQueueForTeacher db now t).1 e.id = some Status.waiting

/-- The (amended) behaviour of ProcessSkippedForParent when its skipped list
splits as pre plus a plus post with every pre entry inadmissible and a
admissible: every pre entry is reprioritized to waiting at position 1 of its
teacher's queue, a is admitted (one meeting created, status current,
startedAt now) and the post entries are untouched. -/
def ProcessSpec (db : DB) (now p : Nat) (pre : List QueueEntry) (a : QueueEntry)
    (post : List QueueEntry) : Prop :=
  (processQueueAfterMeetingEnd db now p).meetings =
      db.meetings ++ [mkAdmitMeeting db now a.teacherId a] ∧
  statusOf (processQueueAfterMeetingEnd db now p) a.id = some Status.current ∧
  startedAtOf (processQueueAfterMeetingEnd db now p) a.id = some (some now) ∧
  (∀ e ∈ pre, statusOf (processQueueAfterMeetingEnd db now p) e.id = some Status.waiting ∧
    positionOf (processQueueAfterMeetingEnd db now p) e.id = some 1) ∧
  (∀ e ∈ post, statusOf (processQueueAfterMeetingEnd db now p) e.id = some Status.skipped ∧
    positionOf (processQueueAfterMeetingEnd db now p) e.id = positionOf db e.id)

/-- The effect of Extend on an existing meeting row m: the extended flag is
set, the extension seconds accumulate onto extendedBy, every other column —
the end time in particular — is unchanged, and a second Extend accumulates
further. -/
def ExtendSpec (db : DB) (mid secs : Nat) (m : Meeting) : Prop :=
  (∃ m', (extendMeeting db mid secs).2 = some m' ∧
    m'.wasExtended = true ∧ m'.extendedBy = m.extendedBy + secs ∧
    m'.id = m.id ∧ m'.teacherId = m.teacherId ∧ m'.queueEntryId = m.queueEntryId ∧
    m'.startedAt = m.startedAt ∧ m'.endedAt = m.endedAt ∧ m'.duration = m.duration) ∧
  (extendMeeting db mid secs).1.entries = db.entries ∧
  (∀ secs2, ∃ m'', (extendMeeting (extendMeeting db mid secs).1 mid secs2).2 = some m'' ∧
    m''.extendedBy = m.extendedBy + secs + secs2 ∧ m''.endedAt = m.endedAt)

/-- The effect of End on a meeting row m that already has an end time: the
call succeeds, the end time is overwritten with now, the duration is
recomputed from the original start time to the new end time, and every other
column is unchanged. -/
def EndAgainSpec (db : DB) (now mid : Nat) (m : Meeting) : Prop :=
  ∃ m', (endMeeting db now mid).2 = some m' ∧
    m'.endedAt = some now ∧
    m'.duration = some ((now : Int) - (m.startedAt : Int)) ∧
    m'.id = m.id ∧ m'.teacherId = m.teacherId ∧ m'.queueEntryId = m.queueEntryId ∧
    m'.startedAt = m.startedAt ∧ m'.wasExtended = m.wasExtended ∧
    m'.extendedBy = m.extendedBy ∧
    (endMeeting db now mid).1.entries = db.entries

/-- The initial status computed by the join route: current exactly when the
teacher's active queue is empty and the parent is in no open meeting; skipped
exactly when the queue is empty and the parent is busy; waiting exactly when
the queue is non-empty. -/
def JoinStatusSpec (db : DB) (now t p cn : Nat) : Prop :=
  ∃ e, (joinQueue db now t p cn).2 = Except.ok e ∧
    ((e.status = Status.current) ↔
      (activeEntriesFor db t = [] ∧ isParentInActiveMeeting db p = false)) ∧
    ((e.status = Status.skipped) ↔
      (activeEntriesFor db t = [] ∧ isParentInActiveMeeting db p = true)) ∧
    ((e.status = Status.waiting) ↔ activeEntriesFor db t ≠ [])

/-! Concrete executions of the public operations, used to settle the claims
that fail on the code. All identifiers are arbitrary Nat tokens. -/

/-- The empty store. -/
def emptyDB : DB := ⟨[], [], 1, 1, []⟩

/-- Parent 11 joins teacher 1's empty queue: entry 1 becomes current and
meeting 1 opens. -/
def c1s1 : DB := (joinQueue emptyDB 1 1 11 0).1

/-- Parent 12 then joins teacher 1: entry 2 is waiting at position 2. -/
def c1s2 : DB := (joinQueue c1s1 2 1 12 0).1

/-- The teacher then invokes skip-no-show. -/
def c1Final : DB := skipNoShowParent c1s2 3 1

/-- Teacher 1 invokes skip-no-show while parent 11 is current in meeting 1
and nobody else waits. -/
def c4Final : DB := skipNoShowParent c1s1 2 1

def c8s1 : DB := (joinQueue emptyDB 1 11 102 0).1
def c8s2 : DB := (joinQueue c8s1 2 10 102 0).1
def c8s3 : DB := (joinQueue c8s2 3 10 101 0).1
def c8s4 : DB := endMeetingRoute c8s3 4 11
def c8s5 : DB := skipNoShowParent c8s4 5 10
def c8s6 : DB := endMeetingRoute c8s5 6 10
def c8s7 : DB := (joinQueue c8s6 7 12 104 0).1
def c8s8 : DB := (joinQueue c8s7 8 10 104 0).1
def c8s9 : DB := endMeetingRoute c8s8 9 10
def c8s10 : DB := (joinQueue c8s9 10 10 105 0).1

/-- An eleven-step run of the public operations (joins, end-meeting requests,
one skip-no-show) against teachers 10, 11 and 12. -/
def c8Final : DB := endMeetingRoute c8s10 11 12

/-- A parent (session 20) with two skipped entries (3 and 4) for two teachers
that are both busy with open meetings; used for ProcessSkippedForParent. -/
def c5Db : DB :=
  { entries := [
      { id := 1, teacherId := 1, parentSessionId := 21, childName := 0, status := Status.current,
        position := 1, joinedAt := 1, notifiedAt := none, startedAt := some 1, completedAt := none },
      { id := 2, teacherId := 2, parentSessionId := 22, childName := 0, status := Status.current,
        position := 1, joinedAt := 2, notifiedAt := none, startedAt := some 2, completedAt := none },
      { id := 3, teacherId := 1, parentSessionId := 20, childName := 0, status := Status.skipped,
        position := 2, joinedAt := 3, notifiedAt := none, startedAt := none, completedAt := none },
      { id := 4, teacherId := 2, parentSessionId := 20, childName := 0, status := Status.skipped,
        position := 2, joinedAt := 4, notifiedAt := none, startedAt := none, completedAt := none }],
    meetings := [
      { id := 1, teacherId := 1, queueEntryId := 1, startedAt := 1, endedAt := none,
        duration := none, wasExtended := false, extendedBy := 0 },
      { id := 2, teacherId := 2, queueEntryId := 2, startedAt := 2, endedAt := none,
        duration := none, wasExtended := false, extendedBy := 0 }],
    nextEntryId := 5, nextMeetingId := 3, events := [] }

def c5Final : DB := processQueueAfterMeetingEnd c5Db 9 20

/-! Small concrete states used to instantiate the general theorems. -/

/-- Teacher 1 with two waiting entries whose parents are free. -/
def wAdvDb : DB :=
  { entries := [
      { id := 1, teacherId := 1, parentSessionId := 21, childName := 0, status := Status.waiting,
        position := 1, joinedAt := 1, notifiedAt := none, startedAt := none, completedAt := none },
      { id := 2, teacherId := 1, parentSessionId := 22, childName := 0, status := Status.waiting,
        position := 2, joinedAt := 2, notifiedAt := none, startedAt := none, completedAt := none }],
    meetings := [], nextEntryId := 3, nextMeetingId := 1, events := [] }

def wAdvE1 : QueueEntry :=
  { id := 1, teacherId := 1, parentSessionId := 21, childName := 0, status := Status.waiting,
    position := 1, joinedAt := 1, notifiedAt := none, startedAt := none, completedAt := none }

def wAdvE2 : QueueEntry :=
  { id := 2, teacherId := 1, parentSessionId := 22, childName := 0, status := Status.waiting,
    position := 2, joinedAt := 2, notifiedAt := none, startedAt := none, completedAt := none }

/-- Parent 20 with a skipped entry for busy teacher 1 and a skipped entry for
free teacher 2. -/
def wProcDb : DB :=
  { entries := [
      { id := 1, teacherId := 1, parentSessionId := 21, childName := 0, status := Status.current,
        position := 1, joinedAt := 1, notifiedAt := none, startedAt := some 1, completedAt := none },
      { id := 3, teacherId := 1, parentSessionId := 20, childName := 0, status := Status.skipped,
        position := 2, joinedAt := 3, notifiedAt := none, startedAt := none, completedAt := none },
      { id := 4, teacherId := 2, parentSessionId := 20, childName := 0, status := Status.skipped,
        position := 1, joinedAt := 4, notifiedAt := none, startedAt := none, completedAt := none }],
    meetings := [
      { id := 1, teacherId := 1, queueEntryId := 1, startedAt := 1, endedAt := none,
        duration := none, wasExtended := false, extendedBy := 0 }],
    nextEntryId := 5, nextMeetingId := 2, events := [] }

def wProcE3 : QueueEntry :=
  { id := 3, teacherId := 1, parentSessionId := 20, childName := 0, status := Status.skipped,
    position := 2, joinedAt := 3, notifiedAt := none, startedAt := none, completedAt := none }

def wProcE4 : QueueEntry :=
  { id := 4, teacherId := 2, parentSessionId := 20, childName := 0, status := Status.skipped,
    position := 1, joinedAt := 4, notifiedAt := none, startedAt := none, completedAt := none }

/-- A store holding one already-ended meeting. -/
def wMeetDb : DB :=
  { entries := [], meetings := [
      { id := 1, teacherId := 1, queueEntryId := 1, startedAt := 2, endedAt := some 3,
        duration := some 1, wasExtended := false, extendedBy := 0 }],
    nextEntryId := 1, nextMeetingId := 2, events := [] }

def wMeet : Meeting :=
  { id := 1, teacherId := 1, queueEntryId := 1, startedAt := 2, endedAt := some 3,
    duration := some 1, wasExtended := false, extendedBy := 0 }

/-- Claim C1: teacher mutual exclusion is NOT an invariant of the operations.
After parent 11 joins teacher 1 (current, meeting open), parent 12 joins
(waiting), and the teacher runs SkipNoShow, the store holds TWO meetings for
teacher 1 with null end time: ProcessSkippedForParent re-admits the dropped
parent and AdvanceForTeacher then inserts a second meeting without any
teacher-free check (storage.ts:528-531 bypasses the admission check). -/
theorem skipNoShow_double_books_teacher :
    (openMeetingsFor c1Final 1).length = 2 ∧
      statusOf c1Final 1 = some Status.current ∧
      statusOf c1Final 2 = some Status.current := by
  decide

/-- Claim C4: SkipNoShow does not mark the dropped entry completed. With
parent 11 current for teacher 1 in an open meeting, skipNoShowParent ends the
meeting, sets the entry's status to skipped (not completed), and the
subsequent ProcessSkippedForParent immediately re-admits the very parent that
was just "removed": the entry ends current with a fresh open meeting, and the
removed notification is followed by a your-turn notification. -/
theorem skipNoShow_readmits_removed_parent :
    statusOf c4Final 1 = some Status.current ∧
      statusOf c4Final 1 ≠ some Status.completed ∧
      (openMeetingsFor c4Final 1).length = 1 ∧
      Event.queueRemoved 1 Msg.removedFromQueue 11 ∈ c4Final.events ∧
      Event.statusUpdate 1 Status.current Msg.yourTurnNow 11 ∈ c4Final.events := by
  decide

/-- Claim C8: position uniqueness is NOT an invariant. After an eleven-step
run of the public operations, teacher 10 has three active entries whose
positions are 2, 3 and 3: re-admitting a skipped entry keeps its stale
position, which collides with a position later assigned by Join. -/
theorem position_uniqueness_fails :
    activePositions c8Final 10 = [2, 3, 3] ∧
      ¬ (activePositions c8Final 10).Nodup := by
  decide

/-- Claim C5 (counterexample): with two skipped entries for parent 20, both of
whose teachers are busy, processQueueAfterMeetingEnd does not stop after the
first entry: the second skipped entry (id 4) is also reprioritized — it ends
waiting at position 1 instead of remaining skipped — contradicting the claim
that only the first skipped entry is acted on. -/
theorem processSkipped_touches_second_entry :
    statusOf c5Final 4 = some Status.waiting ∧
      positionOf c5Final 4 = some 1 ∧
      statusOf c5Final 3 = some Status.waiting := by
  decide

/-! Generic list lemmas. -/

theorem find?_map_pred {α : Type} (g : α → α) (p : α → Bool)
    (hg : ∀ a, p (g a) = p a) :
    ∀ l : List α, (l.map g).find? p = (l.find? p).map g := by
  intro l
  induction l with
  | nil => rfl
  | cons a l ih =>
    simp only [List.map_cons]
    cases h : p a with
    | true =>
      rw [List.find?_cons_of_pos _ (by rw [hg a]; exact h), List.find?_cons_of_pos _ h]
      rfl
    | false =>
      rw [List.find?_cons_of_neg _ (by simp [hg a, h]), List.find?_cons_of_neg _ (by simp [h]), ih]

theorem any_ext {α : Type} {p q : α → Bool} (h : ∀ a, p a = q a) (l : List α) :
    l.any p = l.any q := by
  induction l with
  | nil => rfl
  | cons a l ih => simp only [List.any_cons, h a, ih]

theorem find?_key_eq_of_mem {α : Type} (key : α → Nat) :
    ∀ (l : List α), (l.map key).Nodup → ∀ a ∈ l,
      l.find? (fun x => key x == key a) = some a := by
  intro l
  induction l with
  | nil => intro _ a ha; cases ha
  | cons b l ih =>
    intro hn a ha
    rw [List.map_cons, List.nodup_cons] at hn
    rcases List.mem_cons.mp ha with rfl | hal
    · exact List.find?_cons_of_pos _ (by simp)
    · have hne : (key b == key a) = false := by
        apply beq_false_of_ne
        intro hkey
        exact hn.1 (hkey ▸ List.mem_map_of_mem key hal)
      rw [List.find?_cons_of_neg _ (by simp [hne]), ih hn.2 a hal]

/-! Framing lemmas: which observers each mutator leaves unchanged. -/

theorem entryById_mapEntries (db : DB) (g : QueueEntry → QueueEntry)
    (hid : ∀ e, (g e).id = e.id) (j : Nat) :
    entryById (mapEntries db g) j = (entryById db j).map g :=
  find?_map_pred g _ (fun e => by simp [hid e]) db.entries

theorem entryIds_mapEntries (db : DB) (g : QueueEntry → QueueEntry)
    (hid : ∀ e, (g e).id = e.id) :
    entryIds (mapEntries db g) = entryIds db := by
  unfold entryIds mapEntries
  simp only [List.map_map]
  exact List.map_congr_left (fun e _ => hid e)

theorem busy_mapEntries (db : DB) (g : QueueEntry → QueueEntry)
    (hid : ∀ e, (g e).id = e.id) (hp : ∀ e, (g e).parentSessionId = e.parentSessionId)
    (p : Nat) :
    isParentInActiveMeeting (mapEntries db g) p = isParentInActiveMeeting db p := by
  unfold isParentInActiveMeeting
  apply any_ext
  intro m
  show (m.endedAt.isNone && _) = (m.endedAt.isNone && _)
  rw [entryById_mapEntries db g hid]
  cases entryById db m.queueEntryId with
  | none => rfl
  | some e => simp [hp e]

theorem busy_skipOne (db : DB) (e' : QueueEntry) (p : Nat) :
    isParentInActiveMeeting (skipOne db e') p = isParentInActiveMeeting db p := by
  show isParentInActiveMeeting (mapEntries db _) p = isParentInActiveMeeting db p
  exact busy_mapEntries db _ (fun e => by by_cases h : (e.id == e'.id) = true <;> simp [h])
    (fun e => by by_cases h : (e.id == e'.id) = true <;> simp [h]) p

theorem entryBusy_skipOne (db : DB) (e' e : QueueEntry) :
    entryBusy (skipOne db e') e = entryBusy db e :=
  busy_skipOne db e' e.parentSessionId

theorem meetings_skipAll : ∀ (l : List QueueEntry) (db : DB), (skipAll db l).meetings = db.meetings := by
  intro l
  induction l with
  | nil => intro db; rfl
  | cons e l ih => intro db; exact ih (skipOne db e)

theorem nextMeetingId_skipAll : ∀ (l : List QueueEntry) (db : DB),
    (skipAll db l).nextMeetingId = db.nextMeetingId := by
  intro l
  induction l with
  | nil => intro db; rfl
  | cons e l ih => intro db; exact ih (skipOne db e)

theorem entries_skipOne (db : DB) (e' : QueueEntry) :
    (skipOne db e').entries =
      db.entries.map (fun e => if e.id == e'.id then { e with status := Status.skipped } else e) := rfl

theorem entries_skipAll : ∀ (l : List QueueEntry) (db : DB),
    (skipAll db l).entries = db.entries.map (skipIfIn (l.map QueueEntry.id)) := by
  intro l
  induction l with
  | nil =>
    intro db
    show db.entries = _
    simp only [List.map_nil]
    rw [show db.entries.map (skipIfIn []) = db.entries.map id from
      List.map_congr_left (fun e _ => by simp [skipIfIn]), List.map_id]
  | cons e' l ih =>
    intro db
    show (skipAll (skipOne db e') l).entries = _
    rw [ih (skipOne db e'), entries_skipOne, List.map_map]
    apply List.map_congr_left
    intro x _
    show skipIfIn (l.map QueueEntry.id) (if x.id == e'.id then _ else x) = _
    by_cases hxe : x.id = e'.id
    · rw [if_pos (by simp [hxe])]
      unfold skipIfIn
      by_cases hm : x.id ∈ l.map QueueEntry.id
      · rw [if_pos hm, if_pos (by simp [hxe])]
      · rw [if_neg (by simpa using hm), if_pos (by simp [hxe])]
    · rw [if_neg (by simp [hxe])]
      unfold skipIfIn
      by_cases hm : x.id ∈ l.map QueueEntry.id
      · rw [if_pos hm, if_pos (by simp [hxe, hm])]
      · rw [if_neg hm, if_neg (by simp [hxe, hm])]

theorem skipIfIn_id (ids : List Nat) (e : QueueEntry) : (skipIfIn ids e).id = e.id := by
  unfold skipIfIn
  split <;> rfl

theorem entryIds_skipAll (l : List QueueEntry) (db : DB) :
    entryIds (skipAll db l) = entryIds db := by
  unfold entryIds
  rw [entries_skipAll, List.map_map]
  exact List.map_congr_left (fun x _ => skipIfIn_id _ x)

theorem entryById_skipAll (l : List QueueEntry) (db : DB) (j : Nat) :
    entryById (skipAll db l) j = (entryById db j).map (skipIfIn (l.map QueueEntry.id)) := by
  unfold entryById
  rw [entries_skipAll]
  exact find?_map_pred _ _ (fun e => by rw [skipIfIn_id]) db.entries

theorem busy_skipAll : ∀ (l : List QueueEntry) (db : DB) (p : Nat),
    isParentInActiveMeeting (skipAll db l) p = isParentInActiveMeeting db p := by
  intro l
  induction l with
  | nil => intro db p; rfl
  | cons e l ih => intro db p; rw [show skipAll db (e :: l) = skipAll (skipOne db e) l from rfl,
      ih (skipOne db e) p, busy_skipOne]

/-! Characterization of the advance scan loop. -/

theorem meetings_admitOne (db : DB) (now t : Nat) (a : QueueEntry) :
    (admitOne db now t a).meetings = db.meetings ++ [mkAdmitMeeting db now t a] := rfl

theorem entryIds_admitOne (db : DB) (now t : Nat) (a : QueueEntry) :
    entryIds (admitOne db now t a) = entryIds db := by
  show entryIds (mapEntries _ _) = entryIds db
  rw [entryIds_mapEntries _ _ (fun e => by by_cases h : (e.id == a.id) = true <;> simp [h])]
  rfl

theorem entryById_admitOne (db : DB) (now t : Nat) (a : QueueEntry) (j : Nat) :
    entryById (admitOne db now t a) j =
      (entryById db j).map (fun e =>
        if e.id == a.id then { e with status := Status.current, startedAt := some now } else e) := by
  show entryById (mapEntries _ _) j = _
  rw [entryById_mapEntries _ _ (fun e => by by_cases h : (e.id == a.id) = true <;> simp [h])]
  rfl

theorem advanceLoop_all_busy (now t : Nat) :
    ∀ (l : List QueueEntry) (db : DB), (∀ e ∈ l, entryBusy db e = true) →
      advanceLoop now t db l = (skipAll db l, none, none, l) := by
  intro l
  induction l with
  | nil => intro db _; rfl
  | cons e l ih =>
    intro db h
    have he : entryBusy db e = true := h e (List.mem_cons_self e l)
    have hrest : ∀ x ∈ l, entryBusy (skipOne db e) x = true := fun x hx =>
      (entryBusy_skipOne db e x).trans (h x (List.mem_cons_of_mem e hx))
    simp only [advanceLoop, he, if_true]
    rw [ih (skipOne db e) hrest]
    rfl

theorem advanceLoop_split (now t : Nat) :
    ∀ (pre : List QueueEntry) (db : DB) (a : QueueEntry) (post : List QueueEntry),
      (∀ e ∈ pre, entryBusy db e = true) → entryBusy db a = false →
      advanceLoop now t db (pre ++ a :: post) =
        (admitOne (skipAll db pre) now t a, some (mkAdmitMeeting db now t a), some a, pre) := by
  intro pre
  induction pre with
  | nil =>
    intro db a post _ ha
    simp only [List.nil_append, advanceLoop, ha, Bool.false_eq_true, if_false]
    rfl
  | cons e pre ih =>
    intro db a post h ha
    have he : entryBusy db e = true := h e (List.mem_cons_self e pre)
    have hrest : ∀ x ∈ pre, entryBusy (skipOne db e) x = true := fun x hx =>
      (entryBusy_skipOne db e x).trans (h x (List.mem_cons_of_mem e hx))
    have ha' : entryBusy (skipOne db e) a = false :=
      (entryBusy_skipOne db e a).trans ha
    simp only [List.cons_append, advanceLoop, he, if_true]
    rw [show pre.append (a :: post) = pre ++ a :: post from rfl,
      ih (skipOne db e) a post hrest ha']
    rfl

theorem advanceLoop_none_all_busy (now t : Nat) :
    ∀ (l : List QueueEntry) (db : DB), (advanceLoop now t db l).2.1 = none →
      ∀ e ∈ l, entryBusy db e = true := by
  intro l
  induction l with
  | nil => intro db _ e he; cases he
  | cons e l ih =>
    intro db hres x hx
    by_cases he : entryBusy db e = true
    · rcases List.mem_cons.mp hx with rfl | hxl
      · exact he
      · have : (advanceLoop now t (skipOne db e) l).2.1 = none := by
          have := hres
          simp only [advanceLoop, he, if_true] at this
          exact this
        exact ((entryBusy_skipOne db e x).symm.trans (ih (skipOne db e) this x hxl)).symm ▸
          (entryBusy_skipOne db e x).symm.trans (ih (skipOne db e) this x hxl)
    · exfalso
      have he' : entryBusy db e = false := by
        cases hb : entryBusy db e
        · rfl
        · exact absurd hb he
      simp only [advanceLoop, he', Bool.false_eq_true, if_false] at hres
      cases hres

/-! Snapshot and lookup lemmas. -/

theorem mem_snapshot {db : DB} {t : Nat} {e : QueueEntry} :
    e ∈ advanceSnapshot db t ↔
      e ∈ db.entries ∧ (e.teacherId == t && isWaitingOrNext e.status) = true := by
  unfold advanceSnapshot sortByPos
  rw [List.mem_insertionSort]
  exact List.mem_filter

theorem snapshot_ids_nodup (db : DB) (t : Nat) (h : (entryIds db).Nodup) :
    ((advanceSnapshot db t).map QueueEntry.id).Nodup := by
  have hperm : List.Perm (advanceSnapshot db t)
      (db.entries.filter (fun e => e.teacherId == t && isWaitingOrNext e.status)) :=
    List.perm_insertionSort posLe _
  have hsub : ((db.entries.filter
      (fun e => e.teacherId == t && isWaitingOrNext e.status)).map QueueEntry.id).Nodup :=
    List.Nodup.sublist ((List.filter_sublist _).map QueueEntry.id) h
  exact ((hperm.map QueueEntry.id).nodup_iff).mpr hsub

theorem snapshot_sorted (db : DB) (t : Nat) : List.Sorted posLe (advanceSnapshot db t) :=
  List.sorted_insertionSort posLe _

theorem entryById_of_mem {db : DB} {e : QueueEntry} (h : (entryIds db).Nodup)
    (he : e ∈ db.entries) : entryById db e.id = some e :=
  find?_key_eq_of_mem QueueEntry.id db.entries h e he

theorem meetingById_of_mem {db : DB} {m : Meeting} (h : (meetingIds db).Nodup)
    (hm : m ∈ db.meetings) : meetingById db m.id = some m :=
  find?_key_eq_of_mem Meeting.id db.meetings h m hm

theorem meetings_mapEntry (db : DB) (i : Nat) (f : QueueEntry → QueueEntry) :
    (mapEntry db i f).meetings = db.meetings := rfl

theorem meetings_emitE (db : DB) (ev : Event) : (emitE db ev).meetings = db.meetings := rfl

theorem entryById_mapEntry (db : DB) (i : Nat) (f : QueueEntry → QueueEntry)
    (hid : ∀ e, (f e).id = e.id) (j : Nat) :
    entryById (mapEntry db i f) j =
      (entryById db j).map (fun e => if e.id == i then f e else e) :=
  entryById_mapEntries db _ (fun e => by by_cases h : (e.id == i) = true <;> simp [h, hid e]) j

theorem entryById_emitE (db : DB) (ev : Event) (j : Nat) :
    entryById (emitE db ev) j = entryById db j := rfl

theorem mkAdmitMeeting_skipAll (db : DB) (l : List QueueEntry) (now t : Nat) (a : QueueEntry) :
    mkAdmitMeeting (skipAll db l) now t a = mkAdmitMeeting db now t a := by
  unfold mkAdmitMeeting
  rw [nextMeetingId_skipAll]

/-- Claim C2: AdvanceForTeacher scans the teacher's waiting/next entries in
ascending position order; every scanned entry whose parent is busy is marked
skipped and the scan continues; the first entry whose parent is free is
admitted — exactly one meeting is inserted, the entry becomes current with
startedAt set — and the scan stops, so the admitted entry is a
lowest-position eligible one. -/
theorem advance_scan_spec (db : DB) (now t : Nat) (hn : (entryIds db).Nodup) :
    AdvanceCases db now t := by
  constructor
  · intro hbusy
    have hloop := advanceLoop_all_busy now t (advanceSnapshot db t) db hbusy
    have hfin : advanceQueueForTeacher db now t =
        (skipAll db (advanceSnapshot db t), none, none, advanceSnapshot db t) := by
      simp only [advanceQueueForTeacher]
      rw [hloop]
    refine ⟨by rw [hfin], by rw [hfin], ?_, ?_⟩
    · rw [hfin]; exact meetings_skipAll _ _
    · intro e he
      rw [hfin]
      show statusOf (skipAll db (advanceSnapshot db t)) e.id = some Status.skipped
      have hmem : e ∈ db.entries := (mem_snapshot.mp he).1
      unfold statusOf
      rw [entryById_skipAll, entryById_of_mem hn hmem]
      show some (skipIfIn _ e).status = _
      unfold skipIfIn
      rw [if_pos (List.mem_map_of_mem QueueEntry.id he)]
  · intro pre a post hq hpre ha
    have hamem : a ∈ advanceSnapshot db t := by
      rw [hq]; exact List.mem_append_right pre (List.mem_cons_self a post)
    have hadb : a ∈ db.entries := (mem_snapshot.mp hamem).1
    have hsnodup := snapshot_ids_nodup db t hn
    have hqids : (advanceSnapshot db t).map QueueEntry.id =
        pre.map QueueEntry.id ++ a.id :: post.map QueueEntry.id := by
      rw [hq]; simp
    have hanotpre : a.id ∉ pre.map QueueEntry.id := by
      rw [hqids] at hsnodup
      intro hmem
      exact (List.disjoint_of_nodup_append hsnodup) hmem (List.mem_cons_self _ _)
    have hloop := advanceLoop_split now t pre db a post hpre ha
    have hentryA : entryById (admitOne (skipAll db pre) now t a) a.id =
        some { a with status := Status.current, startedAt := some now } := by
      rw [entryById_admitOne, entryById_skipAll, entryById_of_mem hn hadb]
      simp [skipIfIn, hanotpre]
    have hentryPre : ∀ e ∈ pre, entryById (admitOne (skipAll db pre) now t a) e.id =
        some { e with status := Status.skipped } := by
      intro e hepre
      have hemem : e ∈ advanceSnapshot db t := by
        rw [hq]; exact List.mem_append_left _ hepre
      have hedb : e ∈ db.entries := (mem_snapshot.mp hemem).1
      have hne : ¬ e.id = a.id := fun hEq =>
        hanotpre (hEq ▸ List.mem_map_of_mem QueueEntry.id hepre)
      rw [entryById_admitOne, entryById_skipAll, entryById_of_mem hn hedb]
      simp [skipIfIn, List.mem_map_of_mem QueueEntry.id hepre, hne]
    have hids1 : entryIds (admitOne (skipAll db pre) now t a) = entryIds db := by
      rw [entryIds_admitOne, entryIds_skipAll]
    have hids1' : (entryIds (admitOne (skipAll db pre) now t a)).Nodup := by
      rw [hids1]; exact hn
    have hlow : ∀ x ∈ advanceSnapshot db t, entryBusy db x = false →
        a.position ≤ x.position := by
      intro x hx hxfree
      rw [hq] at hx
      rcases List.mem_append.mp hx with hxpre | hxrest
      · rw [hpre x hxpre] at hxfree; cases hxfree
      · rcases List.mem_cons.mp hxrest with rfl | hxpost
        · exact Nat.le_refl _
        · have hsorted := snapshot_sorted db t
          rw [hq] at hsorted
          have hs2 : List.Sorted posLe (a :: post) :=
            List.Pairwise.sublist (List.sublist_append_right _ _) hsorted
          exact List.rel_of_sorted_cons hs2 x hxpost
    have hF : advanceQueueForTeacher db now t =
        match sortByPos (waitingFor (admitOne (skipAll db pre) now t a) t) with
        | [] => (admitOne (skipAll db pre) now t a,
            some (mkAdmitMeeting db now t a), some a, pre)
        | w :: _ => (emitE (mapEntry (admitOne (skipAll db pre) now t a) w.id
            (fun x => { x with status := Status.next, notifiedAt := some now }))
            (Event.statusUpdate w.id Status.next Msg.gettingClose w.parentSessionId),
            some (mkAdmitMeeting db now t a), some a, pre) := by
      simp only [advanceQueueForTeacher]
      rw [hq, hloop]
    cases hw : sortByPos (waitingFor (admitOne (skipAll db pre) now t a) t) with
    | nil =>
      have hF2 : advanceQueueForTeacher db now t =
          (admitOne (skipAll db pre) now t a,
            some (mkAdmitMeeting db now t a), some a, pre) := by
        rw [hF, hw]
      refine ⟨by rw [hF2], by rw [hF2], by rw [hF2], ?_, ?_, ?_, ?_, hlow⟩
      · rw [hF2]
        show (admitOne (skipAll db pre) now t a).meetings = _
        rw [meetings_admitOne, meetings_skipAll, mkAdmitMeeting_skipAll]
      · rw [hF2]
        show statusOf (admitOne (skipAll db pre) now t a) a.id = _
        unfold statusOf
        rw [hentryA]
        rfl
      · rw [hF2]
        show startedAtOf (admitOne (skipAll db pre) now t a) a.id = _
        unfold startedAtOf
        rw [hentryA]
        rfl
      · intro e hepre
        rw [hF2]
        show statusOf (admitOne (skipAll db pre) now t a) e.id = _
        unfold statusOf
        rw [hentryPre e hepre]
        rfl
    | cons w ws =>
      have hF2 : advanceQueueForTeacher db now t =
          (emitE (mapEntry (admitOne (skipAll db pre) now t a) w.id
            (fun x => { x with status := Status.next, notifiedAt := some now }))
            (Event.statusUpdate w.id Status.next Msg.gettingClose w.parentSessionId),
            some (mkAdmitMeeting db now t a), some a, pre) := by
        rw [hF, hw]
      have hwmem : w ∈ waitingFor (admitOne (skipAll db pre) now t a) t := by
        have hmem : w ∈ sortByPos (waitingFor (admitOne (skipAll db pre) now t a) t) := by
          rw [hw]; exact List.mem_cons_self w ws
        unfold sortByPos at hmem
        exact (List.mem_insertionSort posLe).mp hmem
      have hwdb1 : w ∈ (admitOne (skipAll db pre) now t a).entries :=
        List.mem_of_mem_filter hwmem
      have hwst : w.status = Status.waiting := by
        have h2 := (List.mem_filter.mp hwmem).2
        have h3 : (w.status == Status.waiting) = true := by
          exact (Bool.and_eq_true_iff.mp h2).2
        simpa using h3
      have hwById : entryById (admitOne (skipAll db pre) now t a) w.id = some w :=
        entryById_of_mem hids1' hwdb1
      have hwa : ¬ a.id = w.id := by
        intro hEq
        rw [hEq] at hentryA
        rw [hentryA] at hwById
        have hwrec := Option.some.inj hwById
        rw [← hwrec] at hwst
        cases hwst
      refine ⟨by rw [hF2], by rw [hF2], by rw [hF2], ?_, ?_, ?_, ?_, hlow⟩
      · rw [hF2]
        show (emitE (mapEntry (admitOne (skipAll db pre) now t a) _ _) _).meetings = _
        rw [meetings_emitE, meetings_mapEntry, meetings_admitOne, meetings_skipAll,
          mkAdmitMeeting_skipAll]
      · rw [hF2]
        unfold statusOf
        rw [entryById_emitE, entryById_mapEntry _ w.id
          (fun x => { x with status := Status.next, notifiedAt := some now })
          (fun e => rfl) a.id, hentryA]
        simp [hwa]
      · rw [hF2]
        unfold startedAtOf
        rw [entryById_emitE, entryById_mapEntry _ w.id
          (fun x => { x with status := Status.next, notifiedAt := some now })
          (fun e => rfl) a.id, hentryA]
        simp [hwa]
      · intro e hepre
        have hew : ¬ e.id = w.id := by
          intro hEq
          have h1 := hentryPre e hepre
          rw [hEq] at h1
          rw [h1] at hwById
          have hwrec := Option.some.inj hwById
          rw [← hwrec] at hwst
          cases hwst
        rw [hF2]
        unfold statusOf
        rw [entryById_emitE, entryById_mapEntry _ w.id
          (fun x => { x with status := Status.next, notifiedAt := some now })
          (fun e => rfl) e.id, hentryPre e hepre]
        simp [hew]

/-- Claim C2 (witness): the scan spec instantiated on a two-entry queue. -/
theorem advance_scan_spec_witness : AdvanceCases wAdvDb 5 1 :=
  advance_scan_spec wAdvDb 5 1 (by decide)

/-! Lemmas for the promotion step. -/

theorem events_emitE (db : DB) (ev : Event) : (emitE db ev).events = db.events ++ [ev] := rfl

theorem entryIds_skipOne (db : DB) (e' : QueueEntry) :
    entryIds (skipOne db e') = entryIds db := by
  show entryIds (mapEntries db _) = entryIds db
  exact entryIds_mapEntries db _ (fun e => by by_cases h : (e.id == e'.id) = true <;> simp [h])

theorem entryIds_advanceLoop (now t : Nat) :
    ∀ (l : List QueueEntry) (db : DB), entryIds (advanceLoop now t db l).1 = entryIds db := by
  intro l
  induction l with
  | nil => intro db; rfl
  | cons e l ih =>
    intro db
    cases hb : entryBusy db e with
    | true =>
      simp only [advanceLoop, hb, if_true]
      rw [ih (skipOne db e), entryIds_skipOne]
    | false =>
      simp only [advanceLoop, hb, Bool.false_eq_true, if_false]
      exact entryIds_admitOne db now t e

theorem mem_waitingFor {db : DB} {t : Nat} {e : QueueEntry} :
    e ∈ waitingFor db t ↔ e ∈ db.entries ∧ e.teacherId = t ∧ e.status = Status.waiting := by
  unfold waitingFor
  rw [List.mem_filter]
  simp

/-- Claim C3: after the admission scan — whether one entry was admitted or
none — if any waiting entry remains for the teacher, a lowest-position
waiting entry is promoted to next with notifiedAt now and a getting-close
notification, and every other waiting entry keeps status waiting. When the
scan admitted nobody, every scanned entry was marked skipped, so no waiting
entry remains and the promotion is vacuously covered. -/
theorem advance_promotes_next (db : DB) (now t : Nat) (hn : (entryIds db).Nodup) :
    PromoteSpec db now t := by
  intro hne
  cases hm : (advanceLoop now t db (advanceSnapshot db t)).2.1 with
  | none =>
    exfalso
    have hbusy := advanceLoop_none_all_busy now t (advanceSnapshot db t) db hm
    have hloop := advanceLoop_all_busy now t (advanceSnapshot db t) db hbusy
    apply hne
    rw [hloop]
    show waitingFor (skipAll db (advanceSnapshot db t)) t = []
    unfold waitingFor
    rw [entries_skipAll]
    rw [List.filter_eq_nil_iff]
    intro row hrow
    obtain ⟨x, hx, rfl⟩ := List.mem_map.mp hrow
    unfold skipIfIn
    by_cases hin : x.id ∈ (advanceSnapshot db t).map QueueEntry.id
    · rw [if_pos hin]
      simp
    · rw [if_neg hin]
      intro hp
      apply hin
      apply List.mem_map_of_mem
      apply mem_snapshot.mpr
      refine ⟨hx, ?_⟩
      have h1 := (Bool.and_eq_true_iff.mp hp).1
      have h2 := (Bool.and_eq_true_iff.mp hp).2
      have hst : x.status = Status.waiting := by simpa using h2
      simp [h1, hst, isWaitingOrNext]
  | some mm =>
    have hperm : List.Perm
        (sortByPos (waitingFor (advanceLoop now t db (advanceSnapshot db t)).1 t))
        (waitingFor (advanceLoop now t db (advanceSnapshot db t)).1 t) :=
      List.perm_insertionSort posLe _
    cases hw : sortByPos (waitingFor (advanceLoop now t db (advanceSnapshot db t)).1 t) with
    | nil =>
      exfalso
      apply hne
      rw [hw] at hperm
      exact hperm.symm.eq_nil
    | cons w ws =>
      have hids1 : (entryIds (advanceLoop now t db (advanceSnapshot db t)).1).Nodup := by
        rw [entryIds_advanceLoop]; exact hn
      have hwmem : w ∈ waitingFor (advanceLoop now t db (advanceSnapshot db t)).1 t := by
        have hmemW : w ∈ sortByPos
            (waitingFor (advanceLoop now t db (advanceSnapshot db t)).1 t) := by
          rw [hw]; exact List.mem_cons_self w ws
        unfold sortByPos at hmemW
        exact (List.mem_insertionSort posLe).mp hmemW
      have hwdb1 : w ∈ (advanceLoop now t db (advanceSnapshot db t)).1.entries :=
        (mem_waitingFor.mp hwmem).1
      have hwst : w.status = Status.waiting := (mem_waitingFor.mp hwmem).2.2
      have hwById : entryById (advanceLoop now t db (advanceSnapshot db t)).1 w.id = some w :=
        entryById_of_mem hids1 hwdb1
      have hsorted : List.Sorted posLe (w :: ws) := by
        rw [← hw]
        exact List.sorted_insertionSort posLe _
      have hF : advanceQueueForTeacher db now t =
          (emitE (mapEntry (advanceLoop now t db (advanceSnapshot db t)).1 w.id
            (fun x => { x with status := Status.next, notifiedAt := some now }))
            (Event.statusUpdate w.id Status.next Msg.gettingClose w.parentSessionId),
           (advanceLoop now t db (advanceSnapshot db t)).2) := by
        simp only [advanceQueueForTeacher]
        rw [hm, hw]
      refine ⟨w, hwmem, ?_, ?_, ?_, ?_, ?_⟩
      · intro e he
        have heW : e ∈ w :: ws := by
          rw [← hw]
          unfold sortByPos
          exact (List.mem_insertionSort posLe).mpr he
        rcases List.mem_cons.mp heW with rfl | hews
        · exact Nat.le_refl _
        · exact List.rel_of_sorted_cons hsorted e hews
      · rw [hF]
        unfold statusOf
        rw [entryById_emitE, entryById_mapEntry _ w.id
          (fun x => { x with status := Status.next, notifiedAt := some now })
          (fun e => rfl) w.id, hwById]
        simp
      · rw [hF]
        unfold notifiedAtOf
        rw [entryById_emitE, entryById_mapEntry _ w.id
          (fun x => { x with status := Status.next, notifiedAt := some now })
          (fun e => rfl) w.id, hwById]
        simp
      · rw [hF]
        show _ ∈ (emitE _ _).events
        rw [events_emitE]
        exact List.mem_append_right _ (List.mem_singleton.mpr rfl)
      · intro e he hne2
        rw [hF]
        unfold statusOf
        have heById : entryById (advanceLoop now t db (advanceSnapshot db t)).1 e.id = some e :=
          entryById_of_mem hids1 (mem_waitingFor.mp he).1
        rw [entryById_emitE, entryById_mapEntry _ w.id
          (fun x => { x with status := Status.next, notifiedAt := some now })
          (fun e => rfl) e.id, heById]
        have hest : e.status = Status.waiting := (mem_waitingFor.mp he).2.2
        simp [hne2, hest]

/-- Claim C3 (witness): the promotion spec instantiated on the two-entry
queue, where entry 1 is admitted and entry 2 remains waiting. -/
theorem advance_promotes_next_witness : PromoteSpec wAdvDb 5 1 :=
  advance_promotes_next wAdvDb 5 1 (by decide)

/-! Characterization of the reprocessing loop. -/

theorem cmitf_success (db : DB) (now : Nat) (e : QueueEntry) (h : canAdmit db e = true) :
    createMeetingIfTeacherFree db now e.teacherId e.id =
      ({ db with
          meetings := db.meetings ++ [mkAdmitMeeting db now e.teacherId e],
          nextMeetingId := db.nextMeetingId + 1 },
       some (mkAdmitMeeting db now e.teacherId e)) := by
  unfold canAdmit at h
  unfold createMeetingIfTeacherFree
  cases hany : db.meetings.any (fun m => m.teacherId == e.teacherId && m.endedAt.isNone) with
  | true => rw [hany] at h; simp at h
  | false =>
    rw [hany] at h
    simp only [Bool.not_false, Bool.true_and] at h
    simp only [Bool.false_eq_true, if_false]
    cases hby : entryById db e.id with
    | none => rw [hby] at h; simp at h
    | some x =>
      rw [hby] at h
      simp only at h
      cases hbusy : isParentInActiveMeeting db x.parentSessionId with
      | true => rw [hbusy] at h; simp at h
      | false =>
        simp only [hbusy, Bool.false_eq_true, if_false]
        rfl

theorem cmitf_failure (db : DB) (now : Nat) (e : QueueEntry) (h : canAdmit db e = false) :
    createMeetingIfTeacherFree db now e.teacherId e.id = (db, none) := by
  unfold canAdmit at h
  unfold createMeetingIfTeacherFree
  cases hany : db.meetings.any (fun m => m.teacherId == e.teacherId && m.endedAt.isNone) with
  | true => simp
  | false =>
    rw [hany] at h
    simp only [Bool.not_false, Bool.true_and] at h
    simp only [Bool.false_eq_true, if_false]
    cases hby : entryById db e.id with
    | none => rfl
    | some x =>
      rw [hby] at h
      simp only at h
      cases hbusy : isParentInActiveMeeting db x.parentSessionId with
      | true => simp [hbusy]
      | false => rw [hbusy] at h; simp at h

theorem canAdmit_mapEntries (db : DB) (g : QueueEntry → QueueEntry)
    (hid : ∀ e, (g e).id = e.id) (hp : ∀ e, (g e).parentSessionId = e.parentSessionId)
    (e : QueueEntry) :
    canAdmit (mapEntries db g) e = canAdmit db e := by
  unfold canAdmit
  rw [entryById_mapEntries db g hid]
  cases entryById db e.id with
  | none => rfl
  | some x =>
    show (_ && !(isParentInActiveMeeting (mapEntries db g) (g x).parentSessionId)) = _
    rw [hp x, busy_mapEntries db g hid hp]
    rfl

theorem canAdmit_reprioritize (db : DB) (t i : Nat) (e : QueueEntry) :
    canAdmit (reprioritize db t i) e = canAdmit db e := by
  show canAdmit (mapEntries (mapEntries db
      (fun x => if x.teacherId == t && isActive x.status then
        { x with position := x.position + 1 } else x))
      (fun x => if x.id == i then { x with status := Status.waiting, position := 1 } else x))
      e = _
  rw [canAdmit_mapEntries _ _
      (fun x => by by_cases h : (x.id == i) = true <;> simp [h])
      (fun x => by by_cases h : (x.id == i) = true <;> simp [h]),
    canAdmit_mapEntries _ _
      (fun x => by by_cases h : (x.teacherId == t && isActive x.status) = true <;> simp [h])
      (fun x => by by_cases h : (x.teacherId == t && isActive x.status) = true <;> simp [h])]

theorem entryById_reprioritize (db : DB) (t i j : Nat) :
    entryById (reprioritize db t i) j =
      ((entryById db j).map
        (fun x => if x.teacherId == t && isActive x.status then
          { x with position := x.position + 1 } else x)).map
        (fun x => if x.id == i then { x with status := Status.waiting, position := 1 } else x) := by
  show entryById (mapEntries (mapEntries db _) _) j = _
  rw [entryById_mapEntries _ _
      (fun x => by by_cases h : (x.id == i) = true <;> simp [h]),
    entryById_mapEntries _ _
      (fun x => by by_cases h : (x.teacherId == t && isActive x.status) = true <;> simp [h])]

theorem meetings_reprioritize (db : DB) (t i : Nat) :
    (reprioritize db t i).meetings = db.meetings := rfl

theorem meetings_reprioAll : ∀ (l : List QueueEntry) (db : DB),
    (reprioAll db l).meetings = db.meetings := by
  intro l
  induction l with
  | nil => intro db; rfl
  | cons e l ih => intro db; exact ih (reprioritize db e.teacherId e.id)

theorem nextMeetingId_reprioAll : ∀ (l : List QueueEntry) (db : DB),
    (reprioAll db l).nextMeetingId = db.nextMeetingId := by
  intro l
  induction l with
  | nil => intro db; rfl
  | cons e l ih => intro db; exact ih (reprioritize db e.teacherId e.id)

theorem processLoop_split (now : Nat) :
    ∀ (pre : List QueueEntry) (db : DB) (a : QueueEntry) (post : List QueueEntry),
      (∀ e ∈ pre, canAdmit db e = false) → canAdmit db a = true →
      processLoop now db (pre ++ a :: post) = admitP (reprioAll db pre) now a := by
  intro pre
  induction pre with
  | nil =>
    intro db a post _ ha
    show processLoop now db (a :: post) = admitP db now a
    simp only [processLoop]
    rw [cmitf_success db now a ha]
    rfl
  | cons e pre ih =>
    intro db a post h ha
    have he : canAdmit db e = false := h e (List.mem_cons_self e pre)
    show processLoop now db (e :: (pre ++ a :: post)) = _
    simp only [processLoop]
    rw [cmitf_failure db now e he]
    exact ih (reprioritize db e.teacherId e.id) a post
      (fun x hx => (canAdmit_reprioritize db e.teacherId e.id x).trans
        (h x (List.mem_cons_of_mem e hx)))
      ((canAdmit_reprioritize db e.teacherId e.id a).trans ha)

theorem entryById_reprioritize_frozen (db : DB) (t i : Nat) (x : QueueEntry)
    (hby : entryById db x.id = some x) (hst : isActive x.status = false)
    (hne : ¬ x.id = i) :
    entryById (reprioritize db t i) x.id = some x := by
  rw [entryById_reprioritize, hby]
  simp [hst, hne]

theorem entryById_reprioritize_otherTeacher (db : DB) (t i : Nat) (x : QueueEntry)
    (hby : entryById db x.id = some x) (ht : ¬ x.teacherId = t) (hne : ¬ x.id = i) :
    entryById (reprioritize db t i) x.id = some x := by
  rw [entryById_reprioritize, hby]
  simp [ht, hne]

theorem entryById_reprioritize_target (db : DB) (x : QueueEntry)
    (hby : entryById db x.id = some x) (hst : isActive x.status = false) :
    entryById (reprioritize db x.teacherId x.id) x.id =
      some { x with status := Status.waiting, position := 1 } := by
  rw [entryById_reprioritize, hby]
  simp [hst]

theorem entryById_reprioAll_frozen : ∀ (l : List QueueEntry) (db : DB) (x : QueueEntry),
    entryById db x.id = some x → isActive x.status = false → (∀ e ∈ l, ¬ x.id = e.id) →
    entryById (reprioAll db l) x.id = some x := by
  intro l
  induction l with
  | nil => intro db x hby _ _; exact hby
  | cons e l ih =>
    intro db x hby hst hne
    show entryById (reprioAll (reprioritize db e.teacherId e.id) l) x.id = some x
    exact ih (reprioritize db e.teacherId e.id) x
      (entryById_reprioritize_frozen db e.teacherId e.id x hby hst
        (hne e (List.mem_cons_self e l)))
      hst (fun e' he' => hne e' (List.mem_cons_of_mem e he'))

theorem entryById_reprioAll_otherTeacher : ∀ (l : List QueueEntry) (db : DB) (x : QueueEntry),
    entryById db x.id = some x → (∀ e ∈ l, ¬ x.teacherId = e.teacherId) →
    (∀ e ∈ l, ¬ x.id = e.id) →
    entryById (reprioAll db l) x.id = some x := by
  intro l
  induction l with
  | nil => intro db x hby _ _; exact hby
  | cons e l ih =>
    intro db x hby ht hne
    show entryById (reprioAll (reprioritize db e.teacherId e.id) l) x.id = some x
    exact ih (reprioritize db e.teacherId e.id) x
      (entryById_reprioritize_otherTeacher db e.teacherId e.id x hby
        (ht e (List.mem_cons_self e l)) (hne e (List.mem_cons_self e l)))
      (fun e' he' => ht e' (List.mem_cons_of_mem e he'))
      (fun e' he' => hne e' (List.mem_cons_of_mem e he'))

theorem reprioAll_spec : ∀ (l : List QueueEntry) (db : DB),
    (l.map QueueEntry.teacherId).Nodup → (l.map QueueEntry.id).Nodup →
    (∀ e ∈ l, entryById db e.id = some e) → (∀ e ∈ l, e.status = Status.skipped) →
    ∀ e ∈ l, entryById (reprioAll db l) e.id =
      some { e with status := Status.waiting, position := 1 } := by
  intro l
  induction l with
  | nil => intro db _ _ _ _ e he; cases he
  | cons e' l ih =>
    intro db hts hids hby hsk e he
    have hts' : (l.map QueueEntry.teacherId).Nodup := (List.nodup_cons.mp hts).2
    have htshead : e'.teacherId ∉ l.map QueueEntry.teacherId := (List.nodup_cons.mp hts).1
    have hids' : (l.map QueueEntry.id).Nodup := (List.nodup_cons.mp hids).2
    have hidshead : e'.id ∉ l.map QueueEntry.id := (List.nodup_cons.mp hids).1
    rcases List.mem_cons.mp he with rfl | hel
    · show entryById (reprioAll (reprioritize db e.teacherId e.id) l) e.id = _
      have hsk' : isActive e.status = false := by
        rw [hsk e (List.mem_cons_self e l)]; rfl
      have h1 : entryById (reprioritize db e.teacherId e.id) e.id =
          some { e with status := Status.waiting, position := 1 } :=
        entryById_reprioritize_target db e (hby e (List.mem_cons_self e l)) hsk'
      exact entryById_reprioAll_otherTeacher l (reprioritize db e.teacherId e.id)
        { e with status := Status.waiting, position := 1 } h1
        (fun x hx hEq => htshead (hEq ▸ List.mem_map_of_mem QueueEntry.teacherId hx))
        (fun x hx hEq => hidshead (hEq ▸ List.mem_map_of_mem QueueEntry.id hx))
    · show entryById (reprioAll (reprioritize db e'.teacherId e'.id) l) e.id = _
      apply ih (reprioritize db e'.teacherId e'.id) hts' hids'
      · intro x hx
        have hskx : isActive x.status = false := by
          rw [hsk x (List.mem_cons_of_mem e' hx)]; rfl
        exact entryById_reprioritize_frozen db e'.teacherId e'.id x
          (hby x (List.mem_cons_of_mem e' hx)) hskx
          (fun hEq => hidshead (hEq ▸ List.mem_map_of_mem QueueEntry.id hx))
      · intro x hx; exact hsk x (List.mem_cons_of_mem e' hx)
      · exact hel

theorem mem_skippedList {db : DB} {p : Nat} {e : QueueEntry} :
    e ∈ skippedListFor db p ↔
      e ∈ db.entries ∧ e.parentSessionId = p ∧ e.status = Status.skipped := by
  unfold skippedListFor sortByJoined
  rw [List.mem_insertionSort, List.mem_filter]
  simp

theorem skippedList_ids_nodup (db : DB) (p : Nat) (h : (entryIds db).Nodup) :
    ((skippedListFor db p).map QueueEntry.id).Nodup := by
  have hperm : List.Perm (skippedListFor db p)
      (db.entries.filter (fun e => e.parentSessionId == p && e.status == Status.skipped)) :=
    List.perm_insertionSort joinLe _
  have hsub : ((db.entries.filter
      (fun e => e.parentSessionId == p && e.status == Status.skipped)).map QueueEntry.id).Nodup :=
    List.Nodup.sublist ((List.filter_sublist _).map QueueEntry.id) h
  exact ((hperm.map QueueEntry.id).nodup_iff).mpr hsub

theorem meetings_admitP (db : DB) (now : Nat) (a : QueueEntry) :
    (admitP db now a).meetings = db.meetings ++ [mkAdmitMeeting db now a.teacherId a] := rfl

theorem entryById_admitP (db : DB) (now : Nat) (a : QueueEntry) (j : Nat) :
    entryById (admitP db now a) j =
      (entryById db j).map (fun e =>
        if e.id == a.id then { e with status := Status.current, startedAt := some now } else e) := by
  show entryById (mapEntries _ _) j = _
  rw [entryById_mapEntries _ _ (fun e => by by_cases h : (e.id == a.id) = true <;> simp [h])]
  rfl

theorem mkAdmitMeeting_reprioAll (db : DB) (l : List QueueEntry) (now t : Nat) (a : QueueEntry) :
    mkAdmitMeeting (reprioAll db l) now t a = mkAdmitMeeting db now t a := by
  unfold mkAdmitMeeting
  rw [nextMeetingId_reprioAll]

/-- Claim C5 (amended): ProcessSkippedForParent walks the parent's skipped
entries in ascending original join time; every inadmissible entry before the
first admissible one is reprioritized to waiting at position 1 of its
teacher's queue and the walk continues; the first admissible entry is
admitted (one meeting created, status current, startedAt now) and the walk
stops, leaving the later skipped entries untouched. -/
theorem processSkipped_spec (db : DB) (now p : Nat)
    (pre : List QueueEntry) (a : QueueEntry) (post : List QueueEntry)
    (hn : (entryIds db).Nodup)
    (hq : skippedListFor db p = pre ++ a :: post)
    (hts : ((pre ++ a :: post).map QueueEntry.teacherId).Nodup)
    (hpre : ∀ e ∈ pre, canAdmit db e = false)
    (ha : canAdmit db a = true) :
    ProcessSpec db now p pre a post := by
  have hids : ((pre ++ a :: post).map QueueEntry.id).Nodup := by
    rw [← hq]; exact skippedList_ids_nodup db p hn
  have hmemAll : ∀ e ∈ pre ++ a :: post,
      e ∈ db.entries ∧ e.parentSessionId = p ∧ e.status = Status.skipped := by
    intro e he
    exact mem_skippedList.mp (by rw [hq]; exact he)
  have hfinal : processQueueAfterMeetingEnd db now p = admitP (reprioAll db pre) now a := by
    unfold processQueueAfterMeetingEnd
    rw [hq]
    exact processLoop_split now pre db a post hpre ha
  have hidsq : (pre ++ a :: post).map QueueEntry.id =
      pre.map QueueEntry.id ++ a.id :: post.map QueueEntry.id := by simp
  have hidsBig : (pre.map QueueEntry.id ++ a.id :: post.map QueueEntry.id).Nodup := by
    rw [← hidsq]; exact hids
  have hanotpre : a.id ∉ pre.map QueueEntry.id := by
    intro hmem
    exact (List.disjoint_of_nodup_append hidsBig) hmem (List.mem_cons_self _ _)
  have htsq : (pre ++ a :: post).map QueueEntry.teacherId =
      pre.map QueueEntry.teacherId ++ (a :: post).map QueueEntry.teacherId := by simp
  have htspre : (pre.map QueueEntry.teacherId).Nodup := by
    rw [htsq] at hts
    exact (List.nodup_append.mp hts).1
  have hidspre : (pre.map QueueEntry.id).Nodup :=
    (List.nodup_append.mp hidsBig).1
  have haRe : entryById (reprioAll db pre) a.id = some a := by
    apply entryById_reprioAll_frozen pre db a
      (entryById_of_mem hn (hmemAll a (List.mem_append_right _ (List.mem_cons_self a post))).1)
    · rw [(hmemAll a (List.mem_append_right _ (List.mem_cons_self a post))).2.2]; rfl
    · intro e hepre hEq
      exact hanotpre (by rw [hEq]; exact List.mem_map_of_mem QueueEntry.id hepre)
  refine ⟨?_, ?_, ?_, ?_, ?_⟩
  · rw [hfinal, meetings_admitP, meetings_reprioAll, mkAdmitMeeting_reprioAll]
  · rw [hfinal]
    unfold statusOf
    rw [entryById_admitP, haRe]
    simp
  · rw [hfinal]
    unfold startedAtOf
    rw [entryById_admitP, haRe]
    simp
  · intro e hepre
    have hre := reprioAll_spec pre db htspre hidspre
      (fun x hx => entryById_of_mem hn (hmemAll x (List.mem_append_left _ hx)).1)
      (fun x hx => (hmemAll x (List.mem_append_left _ hx)).2.2)
      e hepre
    have hea : ¬ e.id = a.id := fun hEq =>
      hanotpre (by rw [← hEq]; exact List.mem_map_of_mem QueueEntry.id hepre)
    constructor
    · rw [hfinal]
      unfold statusOf
      rw [entryById_admitP, hre]
      simp [hea]
    · rw [hfinal]
      unfold positionOf
      rw [entryById_admitP, hre]
      simp [hea]
  · intro e hepost
    have hmem := hmemAll e (List.mem_append_right _ (List.mem_cons_of_mem a hepost))
    have heDb : entryById db e.id = some e := entryById_of_mem hn hmem.1
    have hePost : e.id ∈ post.map QueueEntry.id := List.mem_map_of_mem QueueEntry.id hepost
    have hea : ¬ e.id = a.id := by
      intro hEq
      have hnodupCons : (a.id :: post.map QueueEntry.id).Nodup :=
        (List.nodup_append.mp hidsBig).2.1
      exact (List.nodup_cons.mp hnodupCons).1 (hEq ▸ hePost)
    have heRe : entryById (reprioAll db pre) e.id = some e := by
      apply entryById_reprioAll_frozen pre db e heDb
      · rw [hmem.2.2]; rfl
      · intro x hxpre hEq
        have hx1 : e.id ∈ pre.map QueueEntry.id := by
          rw [hEq]; exact List.mem_map_of_mem QueueEntry.id hxpre
        exact (List.disjoint_of_nodup_append hidsBig) hx1
          (List.mem_cons_of_mem a.id hePost)
    constructor
    · rw [hfinal]
      unfold statusOf
      rw [entryById_admitP, heRe]
      simp [hea, hmem.2.2]
    · rw [hfinal]
      unfold positionOf
      rw [entryById_admitP, heRe, heDb]
      simp [hea]

/-- Claim C5 (amended, witness): with one inadmissible skipped entry (busy
teacher 1) followed by one admissible skipped entry (free teacher 2). -/
theorem processSkipped_spec_witness : ProcessSpec wProcDb 9 20 [wProcE3] wProcE4 [] :=
  processSkipped_spec wProcDb 9 20 [wProcE3] wProcE4 [] (by decide) (by decide)
    (by decide) (by decide) (by decide)

theorem createQueueEntry_status (db : DB) (now t p cn : Nat) (st : Status) :
    (createQueueEntry db now t p cn st).2.status = st := rfl

/-- Claim C6: for a non-duplicate Join, the created entry's initial status is
current exactly when the teacher's active queue is empty and the parent has
no open meeting anywhere; skipped exactly when the queue is empty and the
parent is busy elsewhere; and waiting exactly when the queue is non-empty. -/
theorem join_initial_status (db : DB) (now t p cn : Nat)
    (hdup : isParentInTeacherQueue db p t = false) :
    JoinStatusSpec db now t p cn := by
  refine ⟨(createQueueEntry db now t p cn
      (if (activeEntriesFor db t).isEmpty then
        (if isParentInActiveMeeting db p then Status.skipped else Status.current)
      else Status.waiting)).2, ?_, ?_, ?_, ?_⟩
  · unfold joinQueue
    simp only [hdup, Bool.false_eq_true, if_false]
  · rw [createQueueEntry_status]
    by_cases hempty : (activeEntriesFor db t).isEmpty = true <;>
      by_cases hbusy : isParentInActiveMeeting db p = true <;>
        simp [hempty, hbusy, ← List.isEmpty_iff, Bool.not_eq_true]
  · rw [createQueueEntry_status]
    by_cases hempty : (activeEntriesFor db t).isEmpty = true <;>
      by_cases hbusy : isParentInActiveMeeting db p = true <;>
        simp [hempty, hbusy, ← List.isEmpty_iff, Bool.not_eq_true]
  · rw [createQueueEntry_status]
    by_cases hempty : (activeEntriesFor db t).isEmpty = true <;>
      by_cases hbusy : isParentInActiveMeeting db p = true <;>
        simp [hempty, hbusy, ← List.isEmpty_iff, Bool.not_eq_true]

/-- Claim C6 (witness): joining an empty store yields a current entry. -/
theorem join_initial_status_witness : JoinStatusSpec emptyDB 1 5 7 0 :=
  join_initial_status emptyDB 1 5 7 0 (by decide)

/-- Claim C7: when the parent session already holds a non-completed entry for
the teacher, a second Join returns the specific duplicate-join error and the
state is unchanged — no entry is created and the existing rows are intact. -/
theorem duplicate_join_rejected (db : DB) (now t p cn : Nat) (e : QueueEntry)
    (he : e ∈ db.entries) (hp : e.parentSessionId = p) (ht : e.teacherId = t)
    (hst : e.status ≠ Status.completed) :
    (joinQueue db now t p cn).2 = Except.error JoinError.alreadyInQueue ∧
      (joinQueue db now t p cn).1 = db := by
  have hnc : isNotCompleted e.status = true := by
    cases hse : e.status
    case completed => exact absurd hse hst
    all_goals rfl
  have hdup : isParentInTeacherQueue db p t = true := by
    unfold isParentInTeacherQueue
    rw [List.any_eq_true]
    exact ⟨e, he, by simp [hp, ht, hnc]⟩
  unfold joinQueue
  simp only [hdup, if_true]
  exact ⟨trivial, trivial⟩

/-- Claim C7 (witness): parent 21 already waits for teacher 1 in the witness
store, so a second join is rejected and the state is unchanged. -/
theorem duplicate_join_rejected_witness :
    (joinQueue wAdvDb 9 1 21 0).2 = Except.error JoinError.alreadyInQueue ∧
      (joinQueue wAdvDb 9 1 21 0).1 = wAdvDb :=
  duplicate_join_rejected wAdvDb 9 1 21 0 wAdvE1 (by decide) rfl rfl (by decide)

theorem meetingById_mapMeeting (db : DB) (i : Nat) (f : Meeting → Meeting)
    (hid : ∀ m, (f m).id = m.id) (j : Nat) :
    meetingById (mapMeeting db i f) j =
      (meetingById db j).map (fun m => if m.id == i then f m else m) :=
  find?_map_pred _ _ (fun m => by by_cases h : m.id = i <;> simp [h, hid m])
    db.meetings

theorem meetingIds_mapMeeting (db : DB) (i : Nat) (f : Meeting → Meeting)
    (hid : ∀ m, (f m).id = m.id) :
    meetingIds (mapMeeting db i f) = meetingIds db := by
  unfold meetingIds mapMeeting
  simp only [List.map_map]
  exact List.map_congr_left (fun m _ => by by_cases h : m.id = i <;> simp [h, hid m])

/-- Claim C9: Extend sets the extended flag, accumulates the extension
seconds, and changes nothing else about the meeting — in particular its end
time — and repeated Extends accumulate. -/
theorem extendMeeting_spec (db : DB) (mid secs : Nat) (m : Meeting)
    (hm : m ∈ db.meetings) (hmid : m.id = mid) (hn : (meetingIds db).Nodup) :
    ExtendSpec db mid secs m := by
  have hby : meetingById db mid = some m := by
    rw [← hmid]; exact meetingById_of_mem hn hm
  have hres : (extendMeeting db mid secs).2 =
      some { m with wasExtended := true, extendedBy := m.extendedBy + secs } := by
    show meetingById (mapMeeting db mid _) mid = _
    rw [meetingById_mapMeeting db mid
      (fun x => { x with wasExtended := true, extendedBy := x.extendedBy + secs })
      (fun x => rfl) mid, hby]
    simp [hmid]
  refine ⟨⟨_, hres, rfl, rfl, rfl, rfl, rfl, rfl, rfl, rfl⟩, rfl, ?_⟩
  intro secs2
  have hby1 : meetingById (extendMeeting db mid secs).1 mid =
      some { m with wasExtended := true, extendedBy := m.extendedBy + secs } := hres
  have hres2 : (extendMeeting (extendMeeting db mid secs).1 mid secs2).2 =
      some { m with wasExtended := true, extendedBy := m.extendedBy + secs + secs2 } := by
    show meetingById (mapMeeting (extendMeeting db mid secs).1 mid _) mid = _
    rw [meetingById_mapMeeting (extendMeeting db mid secs).1 mid
      (fun x => { x with wasExtended := true, extendedBy := x.extendedBy + secs2 })
      (fun x => rfl) mid, hby1]
    simp [hmid]
  exact ⟨_, hres2, rfl, rfl⟩

/-- Claim C9 (witness): extending the already-ended meeting in the witness
store by 300 seconds. -/
theorem extendMeeting_spec_witness : ExtendSpec wMeetDb 1 300 wMeet :=
  extendMeeting_spec wMeetDb 1 300 wMeet (by decide) rfl (by decide)

/-- Claim C10: End on an already-ended meeting does not fail and is not a
no-op: it overwrites the end time with the new now and recomputes the
duration from the original start time, leaving all other columns unchanged. -/
theorem endMeeting_again_overwrites (db : DB) (now mid : Nat) (m : Meeting) (told : Nat)
    (hm : m ∈ db.meetings) (hmid : m.id = mid) (hended : m.endedAt = some told)
    (hn : (meetingIds db).Nodup) :
    EndAgainSpec db now mid m := by
  have hby : meetingById db mid = some m := by
    rw [← hmid]; exact meetingById_of_mem hn hm
  have hres : (endMeeting db now mid).2 =
      some { m with endedAt := some now, duration := some ((now : Int) - (m.startedAt : Int)) } := by
    show meetingById (mapMeeting db mid _) mid = _
    rw [meetingById_mapMeeting db mid
      (fun x => { x with endedAt := some now, duration := some ((now : Int) - (x.startedAt : Int)) })
      (fun x => rfl) mid, hby]
    simp [hmid]
  exact ⟨_, hres, rfl, rfl, rfl, rfl, rfl, rfl, rfl, rfl, rfl⟩

/-- Claim C10 (witness): re-ending the already-ended meeting (ended at 3) at
time 9 in the witness store. -/
theorem endMeeting_again_overwrites_witness : EndAgainSpec wMeetDb 9 1 wMeet :=
  endMeeting_again_overwrites wMeetDb 9 1 wMeet 3 (by decide) rfl rfl (by decide)
